import Mathlib

/-!
Shallow embedding of the HexaCanvas tiling-grid engine (hex / triangle /
pixel grid classes, the grid manager and the flood-fill algorithm) and
proofs about the spec's claims.

Numbers are modelled by the real numbers: the source computes with
JavaScript doubles, and the geometry uses `Math.sqrt(3)` which has no exact
rational embedding.  `Math.round(x)` in JavaScript is `⌊x + 1/2⌋` (ties go
toward positive infinity) and `Math.floor` is `⌊·⌋`.
-/

/-- JavaScript `Math.round`: round half toward positive infinity. -/
noncomputable def jround (x : ℝ) : ℤ := ⌊x + 1/2⌋

/-- The `CellCoordinate` interface of `src/types/index.ts`:
`{ q: integer, r: integer, s?: integer }` with `s` optional. -/
structure CellCoordinate where
  q : ℤ
  r : ℤ
  s : Option ℤ
deriving DecidableEq, Repr

noncomputable section

namespace HexGrid

/-- The `HexGrid` class of `src/utils/hexGrid.ts`: its only instance state
is the mutable `size` scalar. -/
structure State where
  size : ℝ

/-- `HexGrid.axialToPixel` (hexGrid.ts lines 11-15). -/
def axialToPixel (g : State) (q r : ℝ) : ℝ × ℝ :=
  (g.size * (3/2 * q), g.size * (Real.sqrt 3 / 2 * q + Real.sqrt 3 * r))

/-- `HexGrid.roundHex` (hexGrid.ts lines 25-43).  The argument `hs` models
the field `hex.s`; `hex.s || -hex.q - hex.r` is JavaScript truthiness, so a
zero `s` falls back to `-q - r`. -/
def roundHex (hq hr hs : ℝ) : CellCoordinate :=
  let s0 : ℝ := if hs = 0 then -hq - hr else hs
  let q : ℤ := jround hq
  let r : ℤ := jround hr
  let s : ℤ := jround s0
  let qDiff := |(q : ℝ) - hq|
  let rDiff := |(r : ℝ) - hr|
  let sDiff := |(s : ℝ) - s0|
  if qDiff > rDiff ∧ qDiff > sDiff then
    ⟨-r - s, r, some s⟩
  else if rDiff > sDiff then
    ⟨q, -q - s, some s⟩
  else
    ⟨q, r, some (-q - r)⟩

/-- `HexGrid.pixelToAxial` (hexGrid.ts lines 18-22). -/
def pixelToAxial (g : State) (x y : ℝ) : CellCoordinate :=
  let q := (2/3 * x) / g.size
  let r := (-1/3 * x + Real.sqrt 3 / 3 * y) / g.size
  roundHex q r (-q - r)

/-- `HexGrid.getNeighbors` (hexGrid.ts lines 51-61): the six fixed axial
direction offsets added to `(q, r)`. -/
def getNeighbors (q r : ℤ) : List (ℤ × ℤ) :=
  [(q + 1, r), (q + 1, r - 1), (q, r - 1), (q - 1, r), (q - 1, r + 1), (q, r + 1)]

/-- `HexGrid.snapToGrid` (hexGrid.ts lines 87-98); `threshold` defaults to 3
at call sites that omit it. -/
def snapToGrid (g : State) (x y threshold : ℝ) : ℝ × ℝ :=
  let axial := pixelToAxial g x y
  let snapped := axialToPixel g (axial.q : ℝ) (axial.r : ℝ)
  let distance := Real.sqrt ((x - snapped.1) ^ 2 + (y - snapped.2) ^ 2)
  if distance ≤ threshold then snapped else (x, y)

/-- `HexGrid.setSize` (hexGrid.ts lines 100-102): stores the argument with
no clamping. -/
def setSize (_g : State) (size : ℝ) : State := ⟨size⟩

/-- `HexGrid.getSize` (hexGrid.ts lines 104-106). -/
def getSize (g : State) : ℝ := g.size

end HexGrid

namespace TriangleGrid

/-- The `TriangleGrid` class of `src/utils/triangleGrid.ts` (the named,
non-recursive variant): instance state is the `size` scalar; the derived
`triangleWidth`/`triangleHeight` are recomputed inside each method. -/
structure State where
  size : ℝ

/-- `TriangleGrid.axialToPixel` (triangleGrid.ts lines 11-21):
`triangleWidth = size·√3`, `triangleHeight = size·1.5`,
`x = q·triangleWidth·0.5`, `y = r·triangleHeight·0.667`. -/
def axialToPixel (g : State) (q r : ℝ) : ℝ × ℝ :=
  let triangleWidth := g.size * Real.sqrt 3
  let triangleHeight := g.size * 1.5
  (q * triangleWidth * 0.5, r * triangleHeight * 0.667)

/-- `TriangleGrid.pixelToAxial` (triangleGrid.ts lines 24-33): plain
rounding of the affine inverse, no containment verification. -/
def pixelToAxial (g : State) (x y : ℝ) : CellCoordinate :=
  let triangleWidth := g.size * Real.sqrt 3
  let triangleHeight := g.size * 1.5
  ⟨jround ((x * 2) / triangleWidth), jround ((y * 1.5) / triangleHeight), none⟩

/-- `TriangleGrid.snapToGrid` (triangleGrid.ts lines 118-131).  The
`threshold` parameter is optional and tested with `if (threshold)`, i.e.
JavaScript truthiness: absent or zero both skip the distance check. -/
def snapToGrid (g : State) (x y : ℝ) (threshold : Option ℝ) : ℝ × ℝ :=
  let a := pixelToAxial g x y
  let snapped := axialToPixel g (a.q : ℝ) (a.r : ℝ)
  match threshold with
  | some t =>
    if t ≠ 0 then
      (if Real.sqrt ((x - snapped.1) ^ 2 + (y - snapped.2) ^ 2) ≤ t then snapped
       else (x, y))
    else snapped
  | none => snapped

/-- `TriangleGrid.setSize` (triangleGrid.ts lines 133-135): stores the
argument with no clamping. -/
def setSize (_g : State) (size : ℝ) : State := ⟨size⟩

/-- `TriangleGrid.getSize` (triangleGrid.ts lines 137-139). -/
def getSize (g : State) : ℝ := g.size

end TriangleGrid

namespace PixelGrid

/-- The `PixelGrid` class (src/unnamed/part_000): instance state is the
`size` scalar. -/
structure State where
  size : ℝ

/-- `PixelGrid.axialToPixel`: `(q·size, r·size)`. -/
def axialToPixel (g : State) (q r : ℝ) : ℝ × ℝ :=
  (q * g.size, r * g.size)

/-- `PixelGrid.pixelToAxial`: `(floor(x/size), floor(y/size))`. -/
def pixelToAxial (g : State) (x y : ℝ) : CellCoordinate :=
  ⟨⌊x / g.size⌋, ⌊y / g.size⌋, none⟩

/-- `PixelGrid.getNeighbors`: the four axis-aligned offsets. -/
def getNeighbors (q r : ℤ) : List (ℤ × ℤ) :=
  [(q + 1, r), (q - 1, r), (q, r + 1), (q, r - 1)]

/-- `PixelGrid.setSize`: stores the argument with no clamping. -/
def setSize (_g : State) (size : ℝ) : State := ⟨size⟩

/-- `PixelGrid.getSize`. -/
def getSize (g : State) : ℝ := g.size

end PixelGrid

namespace TriangleGridSlot

/-- The slot-index `TriangleGrid` class of src/unnamed/part_003 (the
"recommended" variant of the spec): instance state is `size` together with
the derived constants `triHeight = size·√3/2` and `triWidth = size`. -/
structure State where
  size : ℝ
  triHeight : ℝ
  triWidth : ℝ

/-- The part_003 constructor: computes the derived constants from `size`. -/
def ofSize (size : ℝ) : State := ⟨size, size * (Real.sqrt 3 / 2), size⟩

/-- part_003 `axialToPixel`: `x = q·triWidth·0.5`, `y = r·triHeight`. -/
def axialToPixel (g : State) (q r : ℝ) : ℝ × ℝ :=
  (q * g.triWidth * 0.5, r * g.triHeight)

/-- part_003 `getNeighbors` (lines 77-85): edge-adjacency only, orientation
by the parity of `q + r` (JavaScript `%` is truncated remainder, `tmod`). -/
def getNeighbors (q r : ℤ) : List (ℤ × ℤ) :=
  if (q + r).tmod 2 ≠ 0 then [(q - 1, r), (q + 1, r), (q, r - 1)]
  else [(q - 1, r), (q + 1, r), (q, r + 1)]

/-- part_003 `setSize` (lines 118-122): stores the argument (no clamping)
and recomputes the derived constants. -/
def setSize (_g : State) (size : ℝ) : State := ofSize size

/-- part_003 `getSize`. -/
def getSize (g : State) : ℝ := g.size

mutual

/-- part_003 `pixelToAxial` (lines 24-50), with an explicit fuel bound on
the call-stack depth: every nested method call costs one unit of fuel, and
`none` means the bound was exhausted.  The source method rounds `(x, y)` to
a candidate slot, calls `getCellVertices` on the candidate's center (the
result is unused), tests containment with `pointInCell`, scans the
neighbors for the first containing cell, and falls back to the candidate.
Note that `getCellVertices` in turn calls `pixelToAxial`. -/
def pixelToAxialF (g : State) : ℕ → ℝ → ℝ → Option (ℤ × ℤ)
  | 0, _, _ => none
  | fuel + 1, x, y =>
    let r := jround (y / g.triHeight)
    let q := jround (x / (g.triWidth * 0.5))
    let centered := axialToPixel g (q : ℝ) (r : ℝ)
    match getCellVerticesF g fuel centered.1 centered.2 with
    | none => none
    | some _vertices =>
      match pointInCellF g fuel x y centered.1 centered.2 with
      | none => none
      | some inside =>
        if inside then some (q, r)
        else
          match findContainingF g fuel x y (getNeighbors q r) with
          | none => none
          | some (some nb) => some nb
          | some none => some (q, r)

/-- part_003 `getCellVertices` (lines 52-75), fueled: resolves the cell for
the given center via `pixelToAxial`, then builds the apex/base vertex list
for the up or down orientation. -/
def getCellVerticesF (g : State) : ℕ → ℝ → ℝ → Option (List (ℝ × ℝ))
  | 0, _, _ => none
  | fuel + 1, centerX, centerY =>
    match pixelToAxialF g fuel centerX centerY with
    | none => none
    | some qr =>
      let isUpward := (qr.1 + qr.2).tmod 2 ≠ 0
      let trueCenter := axialToPixel g (qr.1 : ℝ) (qr.2 : ℝ)
      let cx := trueCenter.1
      let cy := trueCenter.2
      let halfWidth := g.triWidth / 2
      if isUpward then
        some [(cx, cy - (2/3) * g.triHeight),
              (cx - halfWidth, cy + (1/3) * g.triHeight),
              (cx + halfWidth, cy + (1/3) * g.triHeight)]
      else
        some [(cx, cy + (2/3) * g.triHeight),
              (cx + halfWidth, cy - (1/3) * g.triHeight),
              (cx - halfWidth, cy - (1/3) * g.triHeight)]

/-- part_003 `pointInCell` (lines 87-103), fueled: barycentric test on the
vertex polygon obtained from `getCellVertices`. -/
def pointInCellF (g : State) : ℕ → ℝ → ℝ → ℝ → ℝ → Option Bool
  | 0, _, _, _, _ => none
  | fuel + 1, x, y, cellX, cellY =>
    match getCellVerticesF g fuel cellX cellY with
    | none => none
    | some vertices =>
      match vertices with
      | v1 :: v2 :: v3 :: _ =>
        let x1 := v1.1
        let y1 := v1.2
        let x2 := v2.1
        let y2 := v2.2
        let x3 := v3.1
        let y3 := v3.2
        let denominator := (y2 - y3) * (x1 - x3) + (x3 - x2) * (y1 - y3)
        if denominator = 0 then some false
        else
          let a := ((y2 - y3) * (x - x3) + (x3 - x2) * (y - y3)) / denominator
          let b := ((y3 - y1) * (x - x3) + (x1 - x3) * (y - y3)) / denominator
          let c := 1 - a - b
          some (decide (0 ≤ a ∧ a ≤ 1 ∧ 0 ≤ b ∧ b ≤ 1 ∧ 0 ≤ c ∧ c ≤ 1))
      | _ => some false

/-- The `for (const neighbor of neighbors)` loop inside part_003
`pixelToAxial` (lines 41-46): returns the first neighbor whose polygon
contains the point, `some none` when no neighbor matches, and `none` when
the fuel bound is exhausted inside a `pointInCell` call. -/
def findContainingF (g : State) (fuel : ℕ) (x y : ℝ) :
    List (ℤ × ℤ) → Option (Option (ℤ × ℤ))
  | [] => some none
  | nb :: rest =>
    let c := axialToPixel g (nb.1 : ℝ) (nb.2 : ℝ)
    match pointInCellF g fuel x y c.1 c.2 with
    | none => none
    | some true => some (some nb)
    | some false => findContainingF g fuel x y rest

end

end TriangleGridSlot

/-- The `GridType` union of `src/types/index.ts`. -/
inductive GridType where
  | hexagon
  | triangle
  | pixel
deriving DecidableEq, Repr

/-- String name of a grid type, as interpolated into the `GridManager`
error message. -/
def GridType.typeName : GridType → String
  | .hexagon => "hexagon"
  | .triangle => "triangle"
  | .pixel => "pixel"

/-- The values stored in the manager's `grids` map: the grid instances it
constructs.  The constructor of `GridManager` (src/unnamed/part_000 lines
91-95) creates a `HexGrid` and a `TriangleGrid`; the pixel grid is left
unregistered ("Pixel grid would be implemented later"). -/
inductive IGrid where
  | hexGrid (g : HexGrid.State)
  | triangleGrid (g : TriangleGrid.State)

namespace GridManager

/-- The `GridManager` class state: the size its grids were built with and
the mutable `currentGridType` (initially `hexagon`). -/
structure State where
  size : ℝ
  currentGridType : GridType

/-- `new GridManager(size)`. -/
def init (size : ℝ) : State := ⟨size, .hexagon⟩

/-- The manager's `grids` map as populated by the constructor: `hexagon`
and `triangle` are set, `pixel` is not. -/
def grids (m : State) : GridType → Option IGrid
  | .hexagon => some (.hexGrid ⟨m.size⟩)
  | .triangle => some (.triangleGrid ⟨m.size⟩)
  | .pixel => none

/-- `GridManager.getGrid` (part_000 lines 97-104): falls back to the
current type when no type is supplied, and throws
`Grid type ... not implemented` when the requested type is absent from
the map. -/
def getGrid (m : State) (gridType : Option GridType) : Except String IGrid :=
  let ty := gridType.getD m.currentGridType
  match grids m ty with
  | some grid => .ok grid
  | none => .error ("Grid type " ++ ty.typeName ++ " not implemented")

/-- `GridManager.getGridForLayer` (part_000 lines 122-131): a pixel layer
always resolves to the pixel grid, other layers to the global type. -/
def getGridForLayer (m : State) (layerGridType globalGridType : GridType) :
    Except String IGrid :=
  if layerGridType = .pixel then getGrid m (some .pixel)
  else getGrid m (some globalGridType)

end GridManager

end

/-- A cell coordinate as stored in the flood-fill queue and change list. -/
abbrev Coord := ℤ × ℤ

/-- A layer's cell map, restricted to what `floodFill` reads from it: the
color (if any) stored at each coordinate.  The source keys its `Map` by the
string `"q,r"`, which is in bijection with the integer pair. -/
def CellMap := Coord → Option String

/-- The JavaScript expression `cell?.color || null`: an absent cell and a
cell with a falsy (empty-string) color both yield `null`. -/
def colorOrNull (c : Option String) : Option String :=
  match c with
  | some s => if s = "" then none else some s
  | none => none

/-- The hard cap of `floodFill` (canvasStore.ts line 91). -/
def MAX_CELLS : ℕ := 5000

/-- The `while` loop of `floodFill` (canvasStore.ts lines 94-120).  State:
the visited set, the work queue (`shift` from the front, `push` to the
back), the accumulated change list and the processed-cell counter.
Returns the final change list and counter. -/
def floodLoop (cells : CellMap) (nbrs : Coord → List Coord)
    (targetColor : Option String) (visited : Finset Coord) (queue : List Coord)
    (changes : List (Coord × Option String)) (processed : ℕ) :
    List (Coord × Option String) × ℕ :=
  match queue with
  | [] => (changes, processed)
  | current :: rest =>
    if processed < MAX_CELLS then
      if current ∈ visited then
        floodLoop cells nbrs targetColor visited rest changes processed
      else
        let visited' := insert current visited
        let cellColor := colorOrNull (cells current)
        if cellColor = targetColor then
          floodLoop cells nbrs targetColor visited'
            (rest ++ (nbrs current).filter (fun nb => decide (nb ∉ visited')))
            (changes ++ [(current, cellColor)]) (processed + 1)
        else
          floodLoop cells nbrs targetColor visited' rest changes (processed + 1)
    else (changes, processed)
termination_by (MAX_CELLS - processed, queue.length)
decreasing_by
  · apply Prod.Lex.right
    simp
  · apply Prod.Lex.left
    omega
  · apply Prod.Lex.left
    omega

/-- `floodFill` (canvasStore.ts lines 74-127).  It reads, but never
mutates, the layer's cell map; the returned boolean models whether the
truncation warning (`console.warn`, lines 122-124) fires, i.e. whether the
processed-cell counter reached `MAX_CELLS`. -/
def floodFill (cells : CellMap) (nbrs : Coord → List Coord)
    (startQ startR : ℤ) (newColor : String) :
    List (Coord × Option String) × Bool :=
  let targetColor := colorOrNull (cells (startQ, startR))
  if targetColor = some newColor then ([], false)
  else
    let res := floodLoop cells nbrs targetColor ∅ [(startQ, startR)] [] 0
    (res.1, decide (MAX_CELLS ≤ res.2))

/-- `HexGrid.getNeighbors` uncurried, as passed to `floodFill` when the
active layer resolves to the hex grid. -/
def hexNeighbors (p : Coord) : List Coord := HexGrid.getNeighbors p.1 p.2

/-- Rounding a real that is exactly an integer returns that integer. -/
lemma jround_intCast (z : ℤ) : jround (z : ℝ) = z := by
  unfold jround
  rw [Int.floor_int_add]
  norm_num

/-- C3.  The spec claims all three grid types are registered in the
manager, so that `getGridForLayer('pixel', g)` returns the pixel grid
without error.  In the code the constructor registers only the hexagon and
triangle grids ("Pixel grid would be implemented later"), so resolving a
pixel layer always throws `Grid type pixel not implemented`; this theorem
evaluates the manager at the failing input. -/
theorem c3_pixel_grid_unregistered :
    GridManager.getGridForLayer (GridManager.init 20) .pixel .hexagon =
      Except.error "Grid type pixel not implemented" ∧
    GridManager.getGridForLayer (GridManager.init 20) .pixel .triangle =
      Except.error "Grid type pixel not implemented" ∧
    GridManager.getGridForLayer (GridManager.init 20) .pixel .pixel =
      Except.error "Grid type pixel not implemented" ∧
    (∃ g, GridManager.getGrid (GridManager.init 20) (some .hexagon) = Except.ok g) ∧
    (∃ g, GridManager.getGrid (GridManager.init 20) (some .triangle) = Except.ok g) := by
  exact ⟨rfl, rfl, rfl, ⟨_, rfl⟩, ⟨_, rfl⟩⟩

/-- C4.  The spec requires `setSize` to clamp degenerate sizes to a safe
minimum of at least 1.  No grid variant clamps: each stores the argument
verbatim, so after `setSize(0)` every `getSize` returns `0 < 1` and the
geometry divides by the zero size. -/
theorem c4_set_size_not_clamped :
    HexGrid.getSize (HexGrid.setSize ⟨20⟩ 0) = 0 ∧
    TriangleGrid.getSize (TriangleGrid.setSize ⟨20⟩ 0) = 0 ∧
    PixelGrid.getSize (PixelGrid.setSize ⟨20⟩ 0) = 0 ∧
    TriangleGridSlot.getSize (TriangleGridSlot.setSize (TriangleGridSlot.ofSize 20) 0) = 0 ∧
    ¬ (1 : ℝ) ≤ HexGrid.getSize (HexGrid.setSize ⟨20⟩ 0) := by
  refine ⟨rfl, rfl, rfl, rfl, ?_⟩
  show ¬ (1 : ℝ) ≤ 0
  norm_num

/-- C7.  `HexGrid.getNeighbors(q, r)` is exactly the six fixed axial
offsets added to `(q, r)`, duplicate-free, and at the origin it equals the
expected six-element set. -/
theorem c7_hex_neighbor_ring :
    (∀ q r : ℤ, HexGrid.getNeighbors q r =
        [(q + 1, r), (q + 1, r - 1), (q, r - 1), (q - 1, r), (q - 1, r + 1), (q, r + 1)] ∧
      (HexGrid.getNeighbors q r).Nodup) ∧
    (HexGrid.getNeighbors 0 0).toFinset =
      ({(1, 0), (1, -1), (0, -1), (-1, 0), (-1, 1), (0, 1)} : Finset (ℤ × ℤ)) := by
  refine ⟨fun q r => ⟨rfl, ?_⟩, by decide⟩
  simp [HexGrid.getNeighbors, List.nodup_cons, Prod.ext_iff]
  omega

/-- JavaScript `%` (truncated remainder) agrees with the Euclidean
remainder on the test `z % 2 == 0`. -/
lemma tmod_two_eq_zero_iff (z : ℤ) : z.tmod 2 = 0 ↔ z % 2 = 0 := by
  rw [← Int.dvd_iff_tmod_eq_zero]
  omega

/-- Membership in the slot-triangle neighbor list, spelled out as a parity
case split usable by `omega`. -/
lemma mem_triangleSlot_neighbors (q r a b : ℤ) :
    (a, b) ∈ TriangleGridSlot.getNeighbors q r ↔
      ((q + r).tmod 2 ≠ 0 ∧
        ((a = q - 1 ∧ b = r) ∨ (a = q + 1 ∧ b = r) ∨ (a = q ∧ b = r - 1))) ∨
      ((q + r).tmod 2 = 0 ∧
        ((a = q - 1 ∧ b = r) ∨ (a = q + 1 ∧ b = r) ∨ (a = q ∧ b = r + 1))) := by
  unfold TriangleGridSlot.getNeighbors
  split_ifs with hpar
  · simp [hpar, List.mem_cons, Prod.ext_iff]
  · simp [hpar, List.mem_cons, Prod.ext_iff]
    omega

/-- C8.  Neighbor symmetry: membership in `getNeighbors` is symmetric for
the hexagon and pixel grids, and for the triangle grid under the
edge-adjacency-only policy of the slot-index variant. -/
theorem c8_neighbor_symmetry :
    (∀ q r q2 r2 : ℤ,
      (q2, r2) ∈ HexGrid.getNeighbors q r → (q, r) ∈ HexGrid.getNeighbors q2 r2) ∧
    (∀ q r q2 r2 : ℤ,
      (q2, r2) ∈ PixelGrid.getNeighbors q r → (q, r) ∈ PixelGrid.getNeighbors q2 r2) ∧
    (∀ q r q2 r2 : ℤ,
      (q2, r2) ∈ TriangleGridSlot.getNeighbors q r →
        (q, r) ∈ TriangleGridSlot.getNeighbors q2 r2) := by
  refine ⟨?_, ?_, ?_⟩ <;> intro q r q2 r2 h
  · simp only [HexGrid.getNeighbors, List.mem_cons, List.not_mem_nil, or_false,
      Prod.mk.injEq] at h ⊢
    omega
  · simp only [PixelGrid.getNeighbors, List.mem_cons, List.not_mem_nil, or_false,
      Prod.mk.injEq] at h ⊢
    omega
  · rw [mem_triangleSlot_neighbors] at h ⊢
    simp only [tmod_two_eq_zero_iff, ne_eq] at h ⊢
    omega

/-- Witness for C8 at concrete cells. -/
theorem c8_neighbor_symmetry_witness :
    (0, 0) ∈ HexGrid.getNeighbors 1 0 ∧
    (0, 0) ∈ PixelGrid.getNeighbors 1 0 ∧
    (0, 0) ∈ TriangleGridSlot.getNeighbors 1 0 :=
  ⟨c8_neighbor_symmetry.1 0 0 1 0 (by decide),
   c8_neighbor_symmetry.2.1 0 0 1 0 (by decide),
   c8_neighbor_symmetry.2.2 0 0 1 0 (by decide)⟩

/-- C9.  For every finite input on a grid with a nonzero size,
`HexGrid.pixelToAxial` returns a coordinate whose optional `s` component is
present and satisfies `q + r + s = 0`: every branch of the cube-rounding
step recomputes one axis from the other two. -/
theorem c9_hex_cube_invariant :
    ∀ (g : HexGrid.State) (x y : ℝ), g.size ≠ 0 → ∃ sv : ℤ,
      (HexGrid.pixelToAxial g x y).s = some sv ∧
      (HexGrid.pixelToAxial g x y).q + (HexGrid.pixelToAxial g x y).r + sv = 0 := by
  intro g x y _
  simp only [HexGrid.pixelToAxial, HexGrid.roundHex]
  split_ifs <;> exact ⟨_, rfl, by ring⟩

/-- Witness for C9 at size 20 and the origin. -/
theorem c9_hex_cube_invariant_witness :
    ∃ sv : ℤ, (HexGrid.pixelToAxial ⟨20⟩ 0 0).s = some sv ∧
      (HexGrid.pixelToAxial ⟨20⟩ 0 0).q + (HexGrid.pixelToAxial ⟨20⟩ 0 0).r + sv = 0 :=
  c9_hex_cube_invariant ⟨20⟩ 0 0 (by norm_num)

/-- If the snap distance test is made against threshold 0, the result is
always the input point: the test passes only when the point coincides with
the snapped center. -/
lemma snap_zero_aux (p : ℝ × ℝ) (x y : ℝ) :
    (if Real.sqrt ((x - p.1) ^ 2 + (y - p.2) ^ 2) ≤ (0 : ℝ) then p else (x, y)) =
      (x, y) := by
  split_ifs with h
  · have h0 : Real.sqrt ((x - p.1) ^ 2 + (y - p.2) ^ 2) = 0 :=
      le_antisymm h (Real.sqrt_nonneg _)
    have hS : (x - p.1) ^ 2 + (y - p.2) ^ 2 ≤ 0 := Real.sqrt_eq_zero'.mp h0
    have hx : x - p.1 = 0 := by nlinarith [sq_nonneg (x - p.1), sq_nonneg (y - p.2)]
    have hy : y - p.2 = 0 := by nlinarith [sq_nonneg (x - p.1), sq_nonneg (y - p.2)]
    exact Prod.ext (by linarith) (by linarith)
  · rfl

/-- C10.  `TriangleGrid.snapToGrid` tests the optional threshold for
truthiness, so an explicit 0 behaves like an absent threshold and the
computed cell center is returned unconditionally; `HexGrid.snapToGrid`
with threshold 0 returns the input point in every case (when the point is
exactly the cell center, the returned snapped center coincides with it). -/
theorem c10_snap_threshold_zero :
    (∀ (g : TriangleGrid.State) (x y : ℝ),
      TriangleGrid.snapToGrid g x y (some 0) = TriangleGrid.snapToGrid g x y none) ∧
    (∀ (g : TriangleGrid.State) (x y : ℝ),
      TriangleGrid.snapToGrid g x y (some 0) =
        TriangleGrid.axialToPixel g ((TriangleGrid.pixelToAxial g x y).q : ℝ)
          ((TriangleGrid.pixelToAxial g x y).r : ℝ)) ∧
    (∀ (g : HexGrid.State) (x y : ℝ), HexGrid.snapToGrid g x y 0 = (x, y)) := by
  refine ⟨?_, ?_, ?_⟩
  · intro g x y
    simp [TriangleGrid.snapToGrid]
  · intro g x y
    simp [TriangleGrid.snapToGrid]
  · intro g x y
    exact snap_zero_aux _ x y

/-- Joint divergence of the mutually recursive part_003 methods: at every
fuel bound, `pixelToAxial` and `getCellVertices` both run out of fuel,
because each one's first action is a nested call to the other. -/
lemma tri3_diverges_aux (g : TriangleGridSlot.State) :
    ∀ fuel : ℕ, (∀ x y, TriangleGridSlot.pixelToAxialF g fuel x y = none) ∧
      (∀ cx cy, TriangleGridSlot.getCellVerticesF g fuel cx cy = none) := by
  intro fuel
  induction fuel with
  | zero =>
    constructor
    · intro x y
      simp only [TriangleGridSlot.pixelToAxialF]
    · intro cx cy
      simp only [TriangleGridSlot.getCellVerticesF]
  | succ n ih =>
    refine ⟨fun x y => ?_, fun cx cy => ?_⟩
    · simp only [TriangleGridSlot.pixelToAxialF]
      rw [ih.2]
    · simp only [TriangleGridSlot.getCellVerticesF]
      rw [ih.1]

/-- C2.  The spec says the slot-index `pixelToAxial` completes on every
finite input, following the round / containment-test / neighbor-scan /
fallback steps.  In the source, `pixelToAxial` unconditionally calls
`getCellVertices`, which itself starts by calling `pixelToAxial` on the
candidate center, so the method never returns: for every call-stack budget
`fuel` the fueled embedding runs out of fuel (in JavaScript this is a
stack-overflow `RangeError` on every input). -/
theorem c2_slot_pixel_to_axial_diverges :
    ∀ (g : TriangleGridSlot.State) (fuel : ℕ) (x y : ℝ),
      TriangleGridSlot.pixelToAxialF g fuel x y = none :=
  fun g fuel x y => (tri3_diverges_aux g fuel).1 x y

/-- Cube-rounding a triple of exact integer coordinates returns those
integers unchanged (all rounding errors are zero, so the final branch
recomputes `s`). -/
lemma roundHex_intCast (q r : ℤ) :
    HexGrid.roundHex (q : ℝ) (r : ℝ) (-(q : ℝ) - (r : ℝ)) =
      ⟨q, r, some (-q - r)⟩ := by
  have e3 : jround (-(q : ℝ) - (r : ℝ)) = -q - r := by
    rw [show (-(q : ℝ) - (r : ℝ)) = ((-q - r : ℤ) : ℝ) by push_cast; ring]
    exact jround_intCast _
  simp only [HexGrid.roundHex, ite_self, jround_intCast, e3]
  norm_num

/-- The hex forward map followed by the fractional inverse returns the
exact integer coordinates; `√3·√3 = 3` makes the linear algebra cancel. -/
lemma hex_roundtrip (s : ℝ) (hs : s ≠ 0) (q r : ℤ) :
    HexGrid.pixelToAxial ⟨s⟩ (HexGrid.axialToPixel ⟨s⟩ (q : ℝ) (r : ℝ)).1
      (HexGrid.axialToPixel ⟨s⟩ (q : ℝ) (r : ℝ)).2 = ⟨q, r, some (-q - r)⟩ := by
  have h3 : Real.sqrt 3 * Real.sqrt 3 = 3 := Real.mul_self_sqrt (by norm_num)
  simp only [HexGrid.axialToPixel, HexGrid.pixelToAxial]
  have hfq : (2/3 * (s * (3/2 * (q : ℝ)))) / s = (q : ℝ) := by
    field_simp
    ring
  have hfr : (-1/3 * (s * (3/2 * (q : ℝ))) +
      Real.sqrt 3 / 3 * (s * (Real.sqrt 3 / 2 * (q : ℝ) + Real.sqrt 3 * (r : ℝ)))) / s =
      (r : ℝ) := by
    rw [div_eq_iff hs]
    have e : Real.sqrt 3 / 3 * (s * (Real.sqrt 3 / 2 * (q : ℝ) + Real.sqrt 3 * (r : ℝ)))
        = (Real.sqrt 3 * Real.sqrt 3) * (s * (q : ℝ) / 6) +
          (Real.sqrt 3 * Real.sqrt 3) * (s * (r : ℝ) / 3) := by
      ring
    rw [e, h3]
    ring
  rw [hfq, hfr]
  exact roundHex_intCast q r

/-- The pixel-grid round trip: multiply by the size, divide back, floor. -/
lemma pixel_roundtrip (s : ℝ) (hs : s ≠ 0) (q r : ℤ) :
    PixelGrid.pixelToAxial ⟨s⟩ (PixelGrid.axialToPixel ⟨s⟩ (q : ℝ) (r : ℝ)).1
      (PixelGrid.axialToPixel ⟨s⟩ (q : ℝ) (r : ℝ)).2 = ⟨q, r, none⟩ := by
  simp only [PixelGrid.axialToPixel, PixelGrid.pixelToAxial]
  rw [mul_div_cancel_right₀ _ hs, mul_div_cancel_right₀ _ hs]
  simp

/-- The named triangle grid's round trip in the `r` axis multiplies by
`1.5·0.667 = 1.0005`, so rounding returns `r` exactly when
`-1000 ≤ r ≤ 999`. -/
lemma triangle_roundtrip (s : ℝ) (hs : 0 < s) (q r : ℤ)
    (hr1 : -1000 ≤ r) (hr2 : r ≤ 999) :
    TriangleGrid.pixelToAxial ⟨s⟩ (TriangleGrid.axialToPixel ⟨s⟩ (q : ℝ) (r : ℝ)).1
      (TriangleGrid.axialToPixel ⟨s⟩ (q : ℝ) (r : ℝ)).2 = ⟨q, r, none⟩ := by
  have hsn : s ≠ 0 := ne_of_gt hs
  have hs3 : Real.sqrt 3 ≠ 0 := by positivity
  simp only [TriangleGrid.axialToPixel, TriangleGrid.pixelToAxial]
  have hq : ((q : ℝ) * (s * Real.sqrt 3) * 0.5 * 2) / (s * Real.sqrt 3) = (q : ℝ) := by
    field_simp
    ring
  have hrr : ((r : ℝ) * (s * 1.5) * 0.667 * 1.5) / (s * 1.5) = (r : ℝ) * 1.0005 := by
    field_simp
    ring
  rw [hq, hrr, jround_intCast]
  have hr1R : (-1000 : ℝ) ≤ (r : ℝ) := by exact_mod_cast hr1
  have hr2R : (r : ℝ) ≤ 999 := by exact_mod_cast hr2
  have : jround ((r : ℝ) * 1.0005) = r := by
    unfold jround
    rw [Int.floor_eq_iff]
    constructor
    · nlinarith
    · nlinarith
  rw [this]

/-- C1 counterexample.  The round-trip claim fails on the triangle grid at
the in-range coordinate `(q, r) = (0, 1000)` with size 10: the inverse
returns `r = 1001` because `round(1000·1.0005) = round(1000.5) = 1001`. -/
theorem c1_roundtrip_counterexample :
    (TriangleGrid.pixelToAxial ⟨10⟩
        (TriangleGrid.axialToPixel ⟨10⟩ ((0 : ℤ) : ℝ) ((1000 : ℤ) : ℝ)).1
        (TriangleGrid.axialToPixel ⟨10⟩ ((0 : ℤ) : ℝ) ((1000 : ℤ) : ℝ)).2).r = 1001 ∧
    (TriangleGrid.pixelToAxial ⟨10⟩
        (TriangleGrid.axialToPixel ⟨10⟩ ((0 : ℤ) : ℝ) ((1000 : ℤ) : ℝ)).1
        (TriangleGrid.axialToPixel ⟨10⟩ ((0 : ℤ) : ℝ) ((1000 : ℤ) : ℝ)).2).r ≠ 1000 := by
  have h : (TriangleGrid.pixelToAxial ⟨10⟩
      (TriangleGrid.axialToPixel ⟨10⟩ ((0 : ℤ) : ℝ) ((1000 : ℤ) : ℝ)).1
      (TriangleGrid.axialToPixel ⟨10⟩ ((0 : ℤ) : ℝ) ((1000 : ℤ) : ℝ)).2).r = 1001 := by
    simp only [TriangleGrid.axialToPixel, TriangleGrid.pixelToAxial]
    have : (((1000 : ℤ) : ℝ) * ((10 : ℝ) * 1.5) * 0.667 * 1.5) / ((10 : ℝ) * 1.5) =
        (1000.5 : ℝ) := by
      push_cast
      norm_num
    rw [this]
    unfold jround
    rw [show (1000.5 : ℝ) + 1/2 = ((1001 : ℤ) : ℝ) by push_cast; norm_num]
    exact Int.floor_intCast _
  exact ⟨h, by rw [h]; decide⟩

/-- C1, amended.  Round-trip identity holds for all sizes `s > 0` (in
particular 10, 20 and 37.5): for the hexagon and pixel grids on all of
`[-1000, 1000]²`, and for the triangle grid provided `r ≤ 999` — at
`r = 1000` the triangle inverse rounds to `r = 1001` (see the
counterexample), so the triangle range must shrink to `[-1000, 999]`. -/
theorem c1_roundtrip_amended :
    ∀ s : ℝ, 0 < s → ∀ q r : ℤ,
      -1000 ≤ q → q ≤ 1000 → -1000 ≤ r → r ≤ 1000 →
      (((HexGrid.pixelToAxial ⟨s⟩ (HexGrid.axialToPixel ⟨s⟩ (q : ℝ) (r : ℝ)).1
          (HexGrid.axialToPixel ⟨s⟩ (q : ℝ) (r : ℝ)).2).q = q ∧
        (HexGrid.pixelToAxial ⟨s⟩ (HexGrid.axialToPixel ⟨s⟩ (q : ℝ) (r : ℝ)).1
          (HexGrid.axialToPixel ⟨s⟩ (q : ℝ) (r : ℝ)).2).r = r) ∧
      ((PixelGrid.pixelToAxial ⟨s⟩ (PixelGrid.axialToPixel ⟨s⟩ (q : ℝ) (r : ℝ)).1
          (PixelGrid.axialToPixel ⟨s⟩ (q : ℝ) (r : ℝ)).2).q = q ∧
        (PixelGrid.pixelToAxial ⟨s⟩ (PixelGrid.axialToPixel ⟨s⟩ (q : ℝ) (r : ℝ)).1
          (PixelGrid.axialToPixel ⟨s⟩ (q : ℝ) (r : ℝ)).2).r = r) ∧
      (r ≤ 999 →
        (TriangleGrid.pixelToAxial ⟨s⟩
            (TriangleGrid.axialToPixel ⟨s⟩ (q : ℝ) (r : ℝ)).1
            (TriangleGrid.axialToPixel ⟨s⟩ (q : ℝ) (r : ℝ)).2).q = q ∧
        (TriangleGrid.pixelToAxial ⟨s⟩
            (TriangleGrid.axialToPixel ⟨s⟩ (q : ℝ) (r : ℝ)).1
            (TriangleGrid.axialToPixel ⟨s⟩ (q : ℝ) (r : ℝ)).2).r = r)) := by
  intro s hs q r _ _ hr1 _
  refine ⟨?_, ?_, fun hr2 => ?_⟩
  · rw [hex_roundtrip s (ne_of_gt hs) q r]
    exact ⟨rfl, rfl⟩
  · rw [pixel_roundtrip s (ne_of_gt hs) q r]
    exact ⟨rfl, rfl⟩
  · rw [triangle_roundtrip s hs q r hr1 hr2]
    exact ⟨rfl, rfl⟩

/-- Witness for C1 (amended) at size 10 and `(q, r) = (2, 3)`. -/
theorem c1_roundtrip_amended_witness :
    ((HexGrid.pixelToAxial ⟨10⟩
        (HexGrid.axialToPixel ⟨10⟩ ((2 : ℤ) : ℝ) ((3 : ℤ) : ℝ)).1
        (HexGrid.axialToPixel ⟨10⟩ ((2 : ℤ) : ℝ) ((3 : ℤ) : ℝ)).2).q = 2 ∧
      (HexGrid.pixelToAxial ⟨10⟩
        (HexGrid.axialToPixel ⟨10⟩ ((2 : ℤ) : ℝ) ((3 : ℤ) : ℝ)).1
        (HexGrid.axialToPixel ⟨10⟩ ((2 : ℤ) : ℝ) ((3 : ℤ) : ℝ)).2).r = 3) ∧
    ((PixelGrid.pixelToAxial ⟨10⟩
        (PixelGrid.axialToPixel ⟨10⟩ ((2 : ℤ) : ℝ) ((3 : ℤ) : ℝ)).1
        (PixelGrid.axialToPixel ⟨10⟩ ((2 : ℤ) : ℝ) ((3 : ℤ) : ℝ)).2).q = 2 ∧
      (PixelGrid.pixelToAxial ⟨10⟩
        (PixelGrid.axialToPixel ⟨10⟩ ((2 : ℤ) : ℝ) ((3 : ℤ) : ℝ)).1
        (PixelGrid.axialToPixel ⟨10⟩ ((2 : ℤ) : ℝ) ((3 : ℤ) : ℝ)).2).r = 3) ∧
    ((TriangleGrid.pixelToAxial ⟨10⟩
        (TriangleGrid.axialToPixel ⟨10⟩ ((2 : ℤ) : ℝ) ((3 : ℤ) : ℝ)).1
        (TriangleGrid.axialToPixel ⟨10⟩ ((2 : ℤ) : ℝ) ((3 : ℤ) : ℝ)).2).q = 2 ∧
      (TriangleGrid.pixelToAxial ⟨10⟩
        (TriangleGrid.axialToPixel ⟨10⟩ ((2 : ℤ) : ℝ) ((3 : ℤ) : ℝ)).1
        (TriangleGrid.axialToPixel ⟨10⟩ ((2 : ℤ) : ℝ) ((3 : ℤ) : ℝ)).2).r = 3) := by
  have h := c1_roundtrip_amended 10 (by norm_num) 2 3 (by norm_num) (by norm_num)
    (by norm_num) (by norm_num)
  exact ⟨h.1, h.2.1, h.2.2 (by norm_num)⟩

/-- Unfolding `floodLoop` on an empty queue. -/
lemma floodLoop_nil (cells : CellMap) (nbrs : Coord → List Coord)
    (target : Option String) (v : Finset Coord)
    (ch : List (Coord × Option String)) (p : ℕ) :
    floodLoop cells nbrs target v [] ch p = (ch, p) := by
  unfold floodLoop
  rfl

/-- Unfolding `floodLoop` when the processed-cell cap is reached. -/
lemma floodLoop_cap (cells : CellMap) (nbrs : Coord → List Coord)
    (target : Option String) (v : Finset Coord) (c : Coord) (rest : List Coord)
    (ch : List (Coord × Option String)) (p : ℕ) (h : ¬ p < MAX_CELLS) :
    floodLoop cells nbrs target v (c :: rest) ch p = (ch, p) := by
  conv_lhs => unfold floodLoop
  rw [if_neg h]

/-- Unfolding `floodLoop` on an already-visited head. -/
lemma floodLoop_visited (cells : CellMap) (nbrs : Coord → List Coord)
    (target : Option String) (v : Finset Coord) (c : Coord) (rest : List Coord)
    (ch : List (Coord × Option String)) (p : ℕ) (h : p < MAX_CELLS) (hv : c ∈ v) :
    floodLoop cells nbrs target v (c :: rest) ch p =
      floodLoop cells nbrs target v rest ch p := by
  conv_lhs => unfold floodLoop
  rw [if_pos h, if_pos hv]

/-- Unfolding `floodLoop` on a fresh head whose color matches the target. -/
lemma floodLoop_step_match (cells : CellMap) (nbrs : Coord → List Coord)
    (target : Option String) (v : Finset Coord) (c : Coord) (rest : List Coord)
    (ch : List (Coord × Option String)) (p : ℕ) (h : p < MAX_CELLS) (hv : c ∉ v)
    (hc : colorOrNull (cells c) = target) :
    floodLoop cells nbrs target v (c :: rest) ch p =
      floodLoop cells nbrs target (insert c v)
        (rest ++ (nbrs c).filter (fun nb => decide (nb ∉ insert c v)))
        (ch ++ [(c, colorOrNull (cells c))]) (p + 1) := by
  conv_lhs => unfold floodLoop
  rw [if_pos h, if_neg hv, if_pos hc]

/-- Unfolding `floodLoop` on a fresh head whose color does not match. -/
lemma floodLoop_step_nomatch (cells : CellMap) (nbrs : Coord → List Coord)
    (target : Option String) (v : Finset Coord) (c : Coord) (rest : List Coord)
    (ch : List (Coord × Option String)) (p : ℕ) (h : p < MAX_CELLS) (hv : c ∉ v)
    (hc : ¬ colorOrNull (cells c) = target) :
    floodLoop cells nbrs target v (c :: rest) ch p =
      floodLoop cells nbrs target (insert c v) rest ch (p + 1) := by
  conv_lhs => unfold floodLoop
  rw [if_pos h, if_neg hv, if_neg hc]

/-- The loop appends at most one change per unit of remaining cap. -/
lemma floodLoop_length_le (cells : CellMap) (nbrs : Coord → List Coord)
    (target : Option String) :
    ∀ (v : Finset Coord) (queue : List Coord)
      (ch : List (Coord × Option String)) (p : ℕ),
      (floodLoop cells nbrs target v queue ch p).1.length ≤
        ch.length + (MAX_CELLS - p) := by
  intro v queue ch p
  induction v, queue, ch, p using floodLoop.induct cells nbrs target with
  | case1 v ch p =>
    rw [floodLoop_nil]
    simp
  | case2 v ch p c rest h hv ih =>
    rw [floodLoop_visited cells nbrs target v c rest ch p h hv]
    exact ih
  | case3 v ch p c rest h hv v2 cc hc ih =>
    rw [floodLoop_step_match cells nbrs target v c rest ch p h hv hc]
    refine le_trans ih ?_
    simp only [List.length_append, List.length_singleton]
    omega
  | case4 v ch p c rest h hv v2 cc hc ih =>
    rw [floodLoop_step_nomatch cells nbrs target v c rest ch p h hv hc]
    refine le_trans ih ?_
    omega
  | case5 v ch p c rest h =>
    rw [floodLoop_cap cells nbrs target v c rest ch p h]
    simp

/-- The loop only ever appends to the accumulated change list. -/
lemma floodLoop_changes_prefix (cells : CellMap) (nbrs : Coord → List Coord)
    (target : Option String) :
    ∀ (v : Finset Coord) (queue : List Coord)
      (ch : List (Coord × Option String)) (p : ℕ),
      ∃ t, (floodLoop cells nbrs target v queue ch p).1 = ch ++ t := by
  intro v queue ch p
  induction v, queue, ch, p using floodLoop.induct cells nbrs target with
  | case1 v ch p =>
    exact ⟨[], by rw [floodLoop_nil]; simp⟩
  | case2 v ch p c rest h hv ih =>
    rw [floodLoop_visited cells nbrs target v c rest ch p h hv]
    exact ih
  | case3 v ch p c rest h hv v2 cc hc ih =>
    obtain ⟨t, ht⟩ := ih
    refine ⟨(c, colorOrNull (cells c)) :: t, ?_⟩
    rw [floodLoop_step_match cells nbrs target v c rest ch p h hv hc, ht]
    simp
  | case4 v ch p c rest h hv v2 cc hc ih =>
    rw [floodLoop_step_nomatch cells nbrs target v c rest ch p h hv hc]
    exact ih
  | case5 v ch p c rest h =>
    exact ⟨[], by rw [floodLoop_cap cells nbrs target v c rest ch p h]; simp⟩

/-- The loop's processed-cell counter never exceeds the cap: a cell is
counted only under the `processed < MAX_CELLS` guard. -/
lemma floodLoop_processed_le (cells : CellMap) (nbrs : Coord → List Coord)
    (target : Option String) :
    ∀ (v : Finset Coord) (queue : List Coord)
      (ch : List (Coord × Option String)) (p : ℕ),
      p ≤ MAX_CELLS → (floodLoop cells nbrs target v queue ch p).2 ≤ MAX_CELLS := by
  intro v queue ch p
  induction v, queue, ch, p using floodLoop.induct cells nbrs target with
  | case1 v ch p =>
    intro hp
    rw [floodLoop_nil]
    exact hp
  | case2 v ch p c rest h hv ih =>
    intro hp
    rw [floodLoop_visited cells nbrs target v c rest ch p h hv]
    exact ih hp
  | case3 v ch p c rest h hv v2 cc hc ih =>
    intro _
    rw [floodLoop_step_match cells nbrs target v c rest ch p h hv hc]
    exact ih (by omega)
  | case4 v ch p c rest h hv v2 cc hc ih =>
    intro _
    rw [floodLoop_step_nomatch cells nbrs target v c rest ch p h hv hc]
    exact ih (by omega)
  | case5 v ch p c rest h =>
    intro hp
    rw [floodLoop_cap cells nbrs target v c rest ch p h]
    exact hp

/-- The all-unpainted layer used by the bounded-fill scenario. -/
def emptyCells : CellMap := fun _ => none

/-- On the all-unpainted layer with hex adjacency, the loop always runs to
the cap: if the visited set stays closed into the queue and contains the
origin's column seed, the queue cannot empty while fewer than `MAX_CELLS`
cells are processed (the visited set would otherwise be closed under hex
neighbors, hence contain the infinite column `(k, 0)`). -/
lemma floodLoop_empty_runs_to_cap :
    ∀ (vis : Finset Coord) (queue : List Coord)
      (ch : List (Coord × Option String)) (p : ℕ),
      p = vis.card → ch.length = p → p ≤ MAX_CELLS →
      (∀ v ∈ vis, ∀ nb ∈ hexNeighbors v, nb ∈ vis ∨ nb ∈ queue) →
      (((0 : ℤ), (0 : ℤ)) ∈ vis ∨ ((0 : ℤ), (0 : ℤ)) ∈ queue) →
      (floodLoop emptyCells hexNeighbors none vis queue ch p).2 = MAX_CELLS ∧
      (floodLoop emptyCells hexNeighbors none vis queue ch p).1.length = MAX_CELLS := by
  intro vis queue ch p
  induction vis, queue, ch, p using floodLoop.induct emptyCells hexNeighbors none with
  | case1 vis ch p =>
    intro h1 h2 h3 h4 h5
    exfalso
    have h0 : ((0 : ℤ), (0 : ℤ)) ∈ vis := by
      rcases h5 with h | h
      · exact h
      · simp at h
    have hclosed : ∀ v ∈ vis, ∀ nb ∈ hexNeighbors v, nb ∈ vis := by
      intro v hv nb hnb
      rcases h4 v hv nb hnb with h | h
      · exact h
      · simp at h
    have hall : ∀ k : ℕ, ((k : ℤ), (0 : ℤ)) ∈ vis := by
      intro k
      induction k with
      | zero => exact_mod_cast h0
      | succ n ihn =>
        have hmem : (((n : ℤ) + 1, (0 : ℤ)) : Coord) ∈ hexNeighbors ((n : ℤ), (0 : ℤ)) := by
          simp [hexNeighbors, HexGrid.getNeighbors]
        have := hclosed _ ihn _ hmem
        have hcast : (((n + 1 : ℕ) : ℤ), (0 : ℤ)) = (((n : ℤ) + 1, (0 : ℤ)) : Coord) := by
          push_cast
          rfl
        rw [hcast]
        exact this
    have hsub : (Finset.range (MAX_CELLS + 1)).image (fun k : ℕ => ((k : ℤ), (0 : ℤ))) ⊆ vis := by
      intro x hx
      simp only [Finset.mem_image, Finset.mem_range] at hx
      obtain ⟨k, _, rfl⟩ := hx
      exact hall k
    have hinj : Function.Injective (fun k : ℕ => (((k : ℤ), (0 : ℤ)) : Coord)) := by
      intro a b hab
      simpa using hab
    have hcard := Finset.card_le_card hsub
    rw [Finset.card_image_of_injective _ hinj, Finset.card_range] at hcard
    omega
  | case2 vis ch p c rest h hv ih =>
    intro h1 h2 h3 h4 h5
    rw [floodLoop_visited emptyCells hexNeighbors none vis c rest ch p h hv]
    apply ih h1 h2 h3
    · intro v hvv nb hnb
      rcases h4 v hvv nb hnb with hmem | hmem
      · exact Or.inl hmem
      · rcases List.mem_cons.mp hmem with heq | hmem2
        · exact Or.inl (heq ▸ hv)
        · exact Or.inr hmem2
    · rcases h5 with h5 | h5
      · exact Or.inl h5
      · rcases List.mem_cons.mp h5 with heq | h5b
        · exact Or.inl (heq ▸ hv)
        · exact Or.inr h5b
  | case3 vis ch p c rest h hv v2 cc hc ih =>
    intro h1 h2 h3 h4 h5
    rw [floodLoop_step_match emptyCells hexNeighbors none vis c rest ch p h hv hc]
    apply ih
    · rw [Finset.card_insert_of_not_mem hv]
      omega
    · simp only [List.length_append, List.length_singleton]
      omega
    · omega
    · intro v hvv nb hnb
      rcases Finset.mem_insert.mp hvv with heq | hvv2
      · by_cases hnbv : nb ∈ insert c vis
        · exact Or.inl hnbv
        · refine Or.inr (List.mem_append.mpr (Or.inr ?_))
          rw [heq] at hnb
          refine List.mem_filter.mpr ⟨hnb, ?_⟩
          exact decide_eq_true hnbv
      · rcases h4 v hvv2 nb hnb with hmem | hmem
        · exact Or.inl (Finset.mem_insert_of_mem hmem)
        · rcases List.mem_cons.mp hmem with heq2 | hmem2
          · exact Or.inl (heq2 ▸ Finset.mem_insert_self c vis)
          · exact Or.inr (List.mem_append.mpr (Or.inl hmem2))
    · rcases h5 with h5 | h5
      · exact Or.inl (Finset.mem_insert_of_mem h5)
      · rcases List.mem_cons.mp h5 with heq | h5b
        · exact Or.inl (heq ▸ Finset.mem_insert_self c vis)
        · exact Or.inr (List.mem_append.mpr (Or.inl h5b))
  | case4 vis ch p c rest h hv v2 cc hc ih =>
    intro h1 h2 h3 h4 h5
    exact absurd rfl hc
  | case5 vis ch p c rest h =>
    intro h1 h2 h3 h4 h5
    rw [floodLoop_cap emptyCells hexNeighbors none vis c rest ch p h]
    constructor
    · omega
    · simp only []
      omega

/-- C6.  Bounded fill: the change list of every `floodFill` call has at
most `MAX_CELLS = 5000` entries (the cap is inside the spec's 2,000-10,000
range) and the processed-cell counter never exceeds the cap; flood-filling
the all-unpainted layer from the origin with a non-null color terminates
and returns a non-empty change list of exactly `MAX_CELLS` entries
together with the truncation-warning flag.  Termination itself is
intrinsic: `floodFill` is a total function of a well-founded loop. -/
theorem c6_bounded_fill :
    (∀ (cells : CellMap) (nbrs : Coord → List Coord) (q r : ℤ) (c : String),
      (floodFill cells nbrs q r c).1.length ≤ MAX_CELLS) ∧
    (∀ (cells : CellMap) (nbrs : Coord → List Coord) (target : Option String)
      (q r : ℤ),
      (floodLoop cells nbrs target ∅ [(q, r)] [] 0).2 ≤ MAX_CELLS) ∧
    (∃ chs : List (Coord × Option String),
      floodFill emptyCells hexNeighbors 0 0 "#FF0000" = (chs, true) ∧
      chs ≠ [] ∧ chs.length = MAX_CELLS) := by
  have hmain := floodLoop_empty_runs_to_cap ∅ [((0 : ℤ), (0 : ℤ))] [] 0
    (by simp) rfl (by omega) (by simp) (by simp)
  have hfill : floodFill emptyCells hexNeighbors 0 0 "#FF0000" =
      ((floodLoop emptyCells hexNeighbors none ∅ [((0 : ℤ), (0 : ℤ))] [] 0).1,
        decide (MAX_CELLS ≤
          (floodLoop emptyCells hexNeighbors none ∅ [((0 : ℤ), (0 : ℤ))] [] 0).2)) := by
    simp only [floodFill,
      show colorOrNull (emptyCells ((0 : ℤ), (0 : ℤ))) = none from rfl]
    rw [if_neg (show ¬ (none : Option String) = some "#FF0000" by simp)]
  refine ⟨?_, ?_, ?_⟩
  · intro cells nbrs q r c
    simp only [floodFill]
    split_ifs with h
    · simp
    · have hle := floodLoop_length_le cells nbrs (colorOrNull (cells (q, r)))
        ∅ [(q, r)] [] 0
      simpa using hle
  · intro cells nbrs target q r
    exact floodLoop_processed_le cells nbrs target ∅ [(q, r)] [] 0 (by omega)
  · refine ⟨(floodLoop emptyCells hexNeighbors none ∅ [((0 : ℤ), (0 : ℤ))] [] 0).1,
      ?_, ?_, hmain.2⟩
    · rw [hfill, hmain.1,
        show decide (MAX_CELLS ≤ MAX_CELLS) = true from decide_eq_true (le_refl _)]
    · intro h
      have hlen := hmain.2
      rw [h] at hlen
      simp [MAX_CELLS] at hlen

/-- A layer whose origin cell is painted with the empty-string color. -/
def emptyStringLayer : CellMap :=
  fun p => if p = ((0 : ℤ), (0 : ℤ)) then some "" else none

/-- A layer whose origin cell is painted red. -/
def redOriginLayer : CellMap :=
  fun p => if p = ((0 : ℤ), (0 : ℤ)) then some "#FF0000" else none

/-- C5 counterexample.  The no-op-fill claim quantifies over every color
`c`; it fails at the falsy color `c = ""`: the start cell stores exactly
`""`, but `cell?.color || null` normalizes `""` to `null`, so the target
(`null`) differs from the fill color (`""`) and the fill proceeds,
returning a non-empty change list instead of zero changes. -/
theorem c5_noop_fill_counterexample :
    emptyStringLayer ((0 : ℤ), (0 : ℤ)) = some "" ∧
    ∃ (chs : List (Coord × Option String)) (w : Bool),
      floodFill emptyStringLayer hexNeighbors 0 0 "" = (chs, w) ∧ chs ≠ [] := by
  have htgtB : colorOrNull (emptyStringLayer ((0 : ℤ), (0 : ℤ))) = none := rfl
  have hfillB : floodFill emptyStringLayer hexNeighbors 0 0 "" =
      ((floodLoop emptyStringLayer hexNeighbors none ∅ [((0 : ℤ), (0 : ℤ))] [] 0).1,
        decide (MAX_CELLS ≤
          (floodLoop emptyStringLayer hexNeighbors none ∅
            [((0 : ℤ), (0 : ℤ))] [] 0).2)) := by
    simp only [floodFill, htgtB]
    rw [if_neg (show ¬ (none : Option String) = some "" by simp)]
  refine ⟨rfl, _, _, hfillB, ?_⟩
  rw [floodLoop_step_match emptyStringLayer hexNeighbors none ∅
    ((0 : ℤ), (0 : ℤ)) [] [] 0 (by norm_num [MAX_CELLS]) (by simp) htgtB]
  obtain ⟨t, ht⟩ := floodLoop_changes_prefix emptyStringLayer hexNeighbors none
    (insert ((0 : ℤ), (0 : ℤ)) ∅)
    ([] ++ (hexNeighbors ((0 : ℤ), (0 : ℤ))).filter
      (fun nb => decide (nb ∉ insert ((0 : ℤ), (0 : ℤ)) (∅ : Finset Coord))))
    ([] ++ [(((0 : ℤ), (0 : ℤ)), colorOrNull (emptyStringLayer ((0 : ℤ), (0 : ℤ))))]) 1
  rw [ht]
  simp

/-- C5, amended.  No-op fill holds for every non-empty color: if the start
cell stores exactly the (truthy) fill color, `floodFill` returns zero
changes and no warning — and, being a pure function of the cell map, it
leaves the map untouched.  For the falsy color `""` the source normalizes
the stored color to `null` and the fill proceeds (see the
counterexample). -/
theorem c5_noop_fill_amended :
    ∀ (cells : CellMap) (nbrs : Coord → List Coord) (q r : ℤ) (c : String),
      c ≠ "" → cells (q, r) = some c →
      floodFill cells nbrs q r c = ([], false) := by
  intro cells nbrs q r c hc hcell
  have hcond : colorOrNull (cells (q, r)) = some c := by
    rw [hcell]
    simp [colorOrNull, hc]
  simp only [floodFill, if_pos hcond]

/-- Witness for C5 (amended): filling the red origin cell with red is a
no-op. -/
theorem c5_noop_fill_amended_witness :
    floodFill redOriginLayer hexNeighbors 0 0 "#FF0000" = ([], false) :=
  c5_noop_fill_amended redOriginLayer hexNeighbors 0 0 "#FF0000" (by decide)
    (by simp [redOriginLayer])
